import Mathlib

/-!
Verification of the radiooooo terminal client (src/radio.py).

The Python source is shallowly embedded below.  Strings are modelled through
their lists of Unicode code points (`String.data`); the Python `str` methods
used by the program (`lower`, `strip`, `rstrip('s')`, `in`, `len`, `int(...)`)
are reproduced on that representation.  `sys.exit(code)` becomes an explicit
outcome carrying the exit code, `print` becomes an appended message log, and
the stateful interactive session becomes a step function over an explicit
session state driven by a list of environment events.

Modelling notes, fixed once for the whole file:
* `lower`/`strip` are modelled for the ASCII range (`Char.toLower`,
  `Char.isWhitespace`); the program only ever feeds them command-line tokens.
* Python `int(...)` is modelled for an optional sign followed by decimal
  digits (surrounding whitespace allowed); digit-grouping underscores are not
  modelled.
* Python `//` on integers is floor division, which for the positive divisors
  used here agrees with Lean's euclidean `Int` division `/`.
-/

namespace Radio

/-! ### Python string primitives -/

/-- Python `str.lower()` (ASCII range). -/
def pyLower (s : String) : String := ⟨s.data.map Char.toLower⟩

/-- Python `str.strip()`: drop whitespace from both ends. -/
def pyStrip (s : String) : String :=
  ⟨((s.data.dropWhile Char.isWhitespace).reverse.dropWhile Char.isWhitespace).reverse⟩

/-- Python `str.rstrip('s')`: drop every trailing `'s'`. -/
def rstripS (s : String) : String :=
  ⟨(s.data.reverse.dropWhile (fun c => c = 's')).reverse⟩

/-- Value of a list of decimal digits. -/
def digitsVal (l : List Char) : Nat :=
  l.foldl (fun acc c => 10 * acc + (c.toNat - 48)) 0

/-- Python `int(s)`: optional surrounding whitespace, optional sign, decimal
digits.  Returns `none` where Python raises `ValueError`. -/
def pyInt (s : String) : Option Int :=
  let t := pyStrip s
  match t.data with
  | [] => none
  | '-' :: rest =>
      if rest ≠ [] ∧ rest.all Char.isDigit then some (-(digitsVal rest : Int)) else none
  | '+' :: rest =>
      if rest ≠ [] ∧ rest.all Char.isDigit then some (digitsVal rest : Int) else none
  | l =>
      if l.all Char.isDigit then some (digitsVal l : Int) else none

/-- Python substring test `pat in hay`, on code-point lists. -/
def subOf (pat : List Char) : List Char → Bool
  | [] => pat.isEmpty
  | c :: t => pat.isPrefixOf (c :: t) || subOf pat t

/-- Python `pat in hay` on strings. -/
def strContains (hay pat : String) : Bool := subOf pat.data hay.data

instance {ε α} [DecidableEq ε] [DecidableEq α] : DecidableEq (Except ε α)
  | .ok x, .ok y =>
      if h : x = y then .isTrue (h ▸ rfl) else .isFalse (fun c => h (Except.ok.inj c))
  | .ok _, .error _ => .isFalse (fun c => Except.noConfusion c)
  | .error _, .ok _ => .isFalse (fun c => Except.noConfusion c)
  | .error x, .error y =>
      if h : x = y then .isTrue (h ▸ rfl) else .isFalse (fun c => h (Except.error.inj c))

/-! ### Decade resolver (src/radio.py, `resolve_decade`, lines 105-129)

`sys.exit(1)` after an error print is modelled as `Except.error` carrying
which message was printed. -/

/-- `DECADES = list(range(1900, 2030, 10))`. -/
def DECADES : List Int := (List.range 13).map (fun k => 1900 + 10 * (k : Int))

/-- The two fatal error prints of `resolve_decade`. -/
inductive DecadeErr where
  | invalid (s : String)
  | outOfRange (n : Int)
deriving DecidableEq, Repr

/-- `resolve_decade(dec_str)`: strip a trailing `s`, parse as int, apply the
two-digit shorthand, round down to a decade, and range-check. -/
def resolve_decade (dec_str : String) : Except DecadeErr Int :=
  let s := rstripS (pyStrip (pyLower dec_str))
  match pyInt s with
  | none => .error (.invalid dec_str)
  | some n0 =>
      let n1 := if n0 < 100 then (if 0 ≤ n0 ∧ n0 ≤ 20 then 2000 + n0 else 1900 + n0) else n0
      let n2 := n1 / 10 * 10
      if DECADES.contains n2 then .ok n2 else .error (.outOfRange n2)

/-! ### Country directory (src/radio.py, `get_countries` / `resolve_country`, lines 43-102)

The remote `en.json` payload is a list of `[iso, name]` pairs; we model it as
a `List (String × String)`.  Python dicts are modelled as association lists
with dict semantics: updating an existing key overwrites its value in place,
a new key is appended; iteration order is list order. -/

/-- Python `d[k] = v` on an association list. -/
def dictInsert (m : List (String × String)) (k v : String) : List (String × String) :=
  if m.any (fun p => p.1 == k) then m.map (fun p => if p.1 == k then (k, v) else p)
  else m ++ [(k, v)]

/-- Python `d.get(k)` / `k in d`. -/
def dictFind (m : List (String × String)) (k : String) : Option String :=
  (m.find? (fun p => p.1 == k)).map (fun p => p.2)

/-- The `mapping` dict built by `get_countries`: for each `[iso, name]` item,
`mapping[name.lower()] = iso` then `mapping[iso.lower()] = iso`. -/
def buildMapping (entries : List (String × String)) : List (String × String) :=
  entries.foldl (fun m e => dictInsert (dictInsert m (pyLower e.2) e.1) (pyLower e.1) e.1) []

/-- The `names` dict built by `get_countries`: `names[iso] = name`. -/
def namesOf (entries : List (String × String)) : List (String × String) :=
  entries.foldl (fun m e => dictInsert m e.1 e.2) []

/-- The deduplication loop of `resolve_country` (`seen` set, keep first
occurrence of each iso). -/
def dedupGo (seen : List String) : List (String × String) → List (String × String)
  | [] => []
  | (iso, name) :: rest =>
      if seen.contains iso then dedupGo seen rest
      else (iso, name) :: dedupGo (iso :: seen) rest

/-- Deduplicate `(iso, name)` matches by iso, keeping first occurrences. -/
def dedupByIso (l : List (String × String)) : List (String × String) := dedupGo [] l

/-- The fatal outcomes of `resolve_country`: the unknown-country print and the
ambiguity listing (the `(iso, names.get(iso, '?'))` lines), both followed by
`sys.exit(1)`. -/
inductive CountryErr where
  | unknown (query : String)
  | ambiguous (candidates : List (String × String))
deriving DecidableEq, Repr

/-- `resolve_country(query)` given the two dicts built by `get_countries`. -/
def resolve_country_core (mapping names : List (String × String)) (query : String) :
    Except CountryErr String :=
  let q := pyStrip (pyLower query)
  match dictFind mapping q with
  | some iso => .ok iso
  | none =>
      let ms := (mapping.filter
          (fun p => strContains p.1 q && decide (3 < p.1.data.length))).map
          (fun p => (p.2, p.1))
      match dedupByIso ms with
      | [(iso, _)] => .ok iso
      | [] => .error (.unknown query)
      | more =>
          .error (.ambiguous ((more.take 10).map
            (fun p => (p.1, (dictFind names p.1).getD "?"))))

/-- `resolve_country(query)` against a directory payload. -/
def resolve_country (entries : List (String × String)) (query : String) :
    Except CountryErr String :=
  resolve_country_core (buildMapping entries) (namesOf entries) query

/-- Modelled from the spec's words, for comparison with `resolve_country`:
exact match of the lowercased trimmed query against lowercased display names
and lowercased codes wins immediately; otherwise substring candidates are
collected from display names longer than 3 characters, duplicate codes are
collapsed, and the outcome is the single candidate, an unknown-country error,
or an ambiguity error listing at most 10 `(code, name)` pairs. -/
def resolve_country_spec (entries : List (String × String)) (query : String) :
    Except CountryErr String :=
  let q := pyStrip (pyLower query)
  match entries.find? (fun e => pyLower e.2 == q || pyLower e.1 == q) with
  | some e => .ok e.1
  | none =>
      let cands := (entries.filter
          (fun e => strContains (pyLower e.2) q && decide (3 < (pyLower e.2).data.length))).map
          (fun e => (e.1, pyLower e.2))
      match dedupByIso cands with
      | [(iso, _)] => .ok iso
      | [] => .error (.unknown query)
      | more =>
          .error (.ambiguous ((more.take 10).map
            (fun p => (p.1, ((entries.find? (fun e => e.1 == p.1)).map (fun e => e.2)).getD "?"))))

/-! ### Track fetch (src/radio.py, `get_track`, lines 132-153)

Only `links.mpeg` of the returned track JSON influences control flow; the
remaining metadata fields are display-only and elided.  A missing `links`
object and a missing `mpeg` key both give `None` through
`track.get("links", {}).get("mpeg")`, collapsed into `mpeg = none`. -/

/-- One playable item; `mpeg` is `track.get("links", {}).get("mpeg")`. -/
structure Track where
  mpeg : Option String
deriving DecidableEq, Repr

/-- Outcome of `json.loads(e.read())` on an HTTP error body: either the body
is not JSON (`json.loads` raises), or it parsed and `err.get("error")` is the
carried optional string. -/
inductive ErrBody where
  | unparseable
  | parsed (errField : Option String)
deriving DecidableEq, Repr

/-- What the `urlopen` call of `get_track` produced: a successful track
response, an `HTTPError` with status code and body, or any other transport
error. -/
inductive FetchResp where
  | success (t : Track)
  | httpErr (code : Nat) (body : ErrBody)
  | netErr
deriving DecidableEq, Repr

/-- An exception propagating out of `get_track`. -/
inductive FetchFailure where
  | httpRaise (code : Nat)
  | parseRaise
  | netRaise
deriving DecidableEq, Repr

/-- `get_track`'s response handling: `HTTPError` with code 400 whose parsed
body's `error` field contains `"No track"` yields `None`; every other failure
re-raises. -/
def get_track (r : FetchResp) : Except FetchFailure (Option Track) :=
  match r with
  | .success t => .ok (some t)
  | .netErr => .error .netRaise
  | .httpErr code body =>
      if code = 400 then
        match body with
        | .unparseable => .error .parseRaise
        | .parsed errField =>
            if strContains (errField.getD "") "No track" then .ok none
            else .error (.httpRaise code)
      else .error (.httpRaise code)

/-- The "no track" condition named by the spec: HTTP status 400 and a parsed
error message containing `"No track"`. -/
def noTrack400 (r : FetchResp) : Bool :=
  match r with
  | .httpErr code (.parsed errField) => code == 400 && strContains (errField.getD "") "No track"
  | _ => false

/-! ### Player process adapter (src/radio.py, `play_track`, lines 156-176)

Which executables `shutil.which` finds is an environment fact.  The child
process spawn itself is performed by the session interpreter below; here we
model the decision `play_track` makes before spawning. -/

/-- Player executables visible on the search path. -/
structure Env where
  mpv : Bool
  ffplay : Bool
deriving DecidableEq, Repr

/-- How `play_track` resolves: no playable URL (prints and returns `None`),
no player executable (prints the remediation hint and returns `None`), or a
child process is started. -/
inductive PlayOutcome where
  | noUrl
  | noPlayer
  | started
deriving DecidableEq, Repr

/-- The decision structure of `play_track`: check the URL, then
`shutil.which("mpv") or shutil.which("ffplay")`, then spawn. -/
def play_track_check (env : Env) (t : Track) : PlayOutcome :=
  match t.mpeg with
  | none => .noUrl
  | some u => if u = "" then .noUrl else if env.mpv || env.ffplay then .started else .noPlayer

/-! ### Interactive session controller (src/radio.py, `interactive_mode`, lines 224-289)

The session is a state machine driven by events from the environment: the
result of a `get_track` call, the child process exiting on its own
(`process.poll() is not None`), a line of input becoming available on stdin,
the 0.5s `select` timeout elapsing with nothing ready, and an external
interrupt (`SIGINT` handled by `cleanup`, or `EOFError`/`KeyboardInterrupt`
caught in the wait loop).

Child processes are recorded in start order as a list of liveness flags;
the Python local `process` is `current`, an index into that list.
`process.terminate()` is modelled as setting the flag to false (the spec's
"stop is assumed synchronous-enough"); so is a natural exit observed through
`poll()`.  `sys.exit(code)` and falling off the end of `main` (exit code 0)
are both modelled by the absorbing phase `done code`. -/

/-- Prints of `interactive_mode` that the claims talk about. -/
inductive Msg where
  | banner
  | trackInfo
  | noTracks
  | noUrlMsg
  | remediation
  | farewell
deriving DecidableEq, Repr

/-- Control position of the session: about to call `get_track` (top of the
outer `while True`), inside the inner wait loop with a child playing, or the
process has ended with an exit code. -/
inductive Phase where
  | fetching
  | waiting
  | done (code : Nat)
deriving DecidableEq, Repr

/-- Session state. -/
structure SessSt where
  phase : Phase
  procs : List Bool
  current : Option Nat
  log : List Msg
deriving DecidableEq, Repr

/-- Environment events driving the session. -/
inductive Ev where
  | fetched (t : Option Track)
  | procExit
  | input (line : String)
  | timeout
  | interrupt
deriving DecidableEq, Repr

/-- `process.terminate()` on the current handle (no-op when there is none;
terminating an already-exited process is also a no-op). -/
def setDead (procs : List Bool) : Option Nat → List Bool
  | none => procs
  | some i => procs.set i false

/-- The `cleanup` closure: terminate the current child if alive, print the
farewell, `sys.exit(0)`. -/
def cleanup (st : SessSt) : SessSt :=
  { st with
    procs := setDead st.procs st.current
    log := st.log ++ [Msg.farewell]
    phase := Phase.done 0 }

def quitKeys : List String := ["q", "quit", "exit"]

def skipKeys : List String := ["n", "next", ""]

/-- One transition of `interactive_mode`. -/
def step (env : Env) (st : SessSt) (e : Ev) : SessSt :=
  match st.phase, e with
  | .done _, _ => st
  | _, .interrupt => cleanup st
  | .fetching, .fetched none =>
      { st with log := st.log ++ [Msg.noTracks], phase := .done 0 }
  | .fetching, .fetched (some t) =>
      let st1 := { st with
        log := st.log ++ [Msg.trackInfo]
        procs := setDead st.procs st.current }
      match play_track_check env t with
      | .noUrl => { st1 with log := st1.log ++ [Msg.noUrlMsg], phase := .done 0 }
      | .noPlayer => { st1 with log := st1.log ++ [Msg.remediation], phase := .done 0 }
      | .started =>
          { st1 with
            procs := st1.procs ++ [true]
            current := some st1.procs.length
            phase := .waiting }
  | .waiting, .procExit =>
      { st with procs := setDead st.procs st.current, phase := .fetching }
  | .waiting, .input line =>
      let key := pyLower (pyStrip line)
      if quitKeys.contains key then cleanup st
      else if skipKeys.contains key then
        { st with procs := setDead st.procs st.current, phase := .fetching }
      else st
  | .waiting, .fetched _ => st
  | .fetching, .procExit => st
  | .fetching, .input _ => st
  | _, .timeout => st

/-- State at entry of the outer loop. -/
def initSt : SessSt := { phase := .fetching, procs := [], current := none, log := [Msg.banner] }

/-- Run the session on a list of environment events. -/
def run (env : Env) (evs : List Ev) : SessSt := evs.foldl (step env) initSt

/-- Number of alive child processes. -/
def countAlive (procs : List Bool) : Nat := (procs.filter (fun b => b)).length

/-- `isRunning` is false exactly for the absorbing `done` phase. -/
def isRunning : Phase → Bool
  | .done _ => false
  | _ => true

/-! ### `main`'s positional-filter resolution (src/radio.py, `main`, lines 361-379)

`get_countries` (lines 43-67) performs one network request
(`GET {base}/language/countries/en.json`) when its module-level cache is
empty and then memoizes the two dicts.  We thread the cache and a trace of
network calls explicitly.  The directory payload the network would return is
a parameter.

A crucial detail of the filter loop: the decade attempt is wrapped in
`try: ... except (ValueError, SystemExit): pass`, so when `resolve_decade`
prints its error and raises `SystemExit`, that exit is swallowed and the
token falls through to the country branch. -/

/-- Network requests issued while resolving filters or fetching tracks. -/
inductive NetCall where
  | countriesFetch
  | playFetch
deriving DecidableEq, Repr

/-- Error prints of the filter loop and of the resolvers it calls. -/
inductive CliMsg where
  | decadeInvalid
  | decadeOutOfRange
  | countryUnknown
  | countryAmbiguous
  | multipleCountries
deriving DecidableEq, Repr

/-- Process-wide state threaded through `main`'s filter loop: the
`_countries_cache` global, the network calls performed so far, and the error
messages printed so far. -/
structure MainSt where
  cache : Option (List (String × String) × List (String × String))
  net : List NetCall
  errs : List CliMsg
deriving DecidableEq, Repr

/-- `get_countries()`: return the cache, or fetch the directory over the
network, build the two dicts, and memoize them. -/
def get_countriesM (dir : List (String × String)) (st : MainSt) :
    (List (String × String) × List (String × String)) × MainSt :=
  match st.cache with
  | some mn => (mn, st)
  | none =>
      let mn := (buildMapping dir, namesOf dir)
      (mn, { st with cache := some mn, net := st.net ++ [NetCall.countriesFetch] })

/-- Message printed when `resolve_decade` fails. -/
def decadeErrMsg : DecadeErr → CliMsg
  | .invalid _ => .decadeInvalid
  | .outOfRange _ => .decadeOutOfRange

/-- Message printed when `resolve_country` fails. -/
def countryErrMsg : CountryErr → CliMsg
  | .unknown _ => .countryUnknown
  | .ambiguous _ => .countryAmbiguous

/-- How `main`'s filter loop ends: resolved filters, or `sys.exit(code)`. -/
inductive MainOutcome where
  | ok (country : Option String) (decades : List Int)
  | exit (code : Nat)
deriving DecidableEq, Repr

/-- The decade attempt for one filter token: `try: n = int(s);
decades.append(resolve_decade(f)); continue; except (ValueError, SystemExit):
pass`.  Returns the resolved decade when the token is one, and otherwise the
state after any swallowed `SystemExit`'s error print. -/
def decadeTryOf (st : MainSt) (f : String) : Option Int × MainSt :=
  match pyInt (rstripS (pyStrip (pyLower f))) with
  | none => (none, st)
  | some _ =>
      match resolve_decade f with
      | .ok d => (some d, st)
      | .error e => (none, { st with errs := st.errs ++ [decadeErrMsg e] })

/-- The `for f in args.filters` loop of `main`. -/
def processFiltersGo (dir : List (String × String)) (country : Option String)
    (decades : List Int) (st : MainSt) : List String → MainOutcome × MainSt
  | [] => (.ok country decades, st)
  | f :: rest =>
      match decadeTryOf st f with
      | (some d, st1) => processFiltersGo dir country (decades ++ [d]) st1 rest
      | (none, st1) =>
          if country.isSome then
            (.exit 1, { st1 with errs := st1.errs ++ [CliMsg.multipleCountries] })
          else
            let p := get_countriesM dir st1
            match resolve_country_core p.1.1 p.1.2 f with
            | .ok iso => processFiltersGo dir (some iso) decades p.2 rest
            | .error e => (.exit 1, { p.2 with errs := p.2.errs ++ [countryErrMsg e] })

/-- `main`'s filter resolution from program start (empty cache, no traffic). -/
def processFilters (dir : List (String × String)) (filters : List String) :
    MainOutcome × MainSt :=
  processFiltersGo dir none [] { cache := none, net := [], errs := [] } filters

/-! ### Predicates used by the theorems below -/

/-- Shape of the process list relative to the current handle: no process yet,
or all processes before the current one dead and the current one last. -/
def ShapeOK (procs : List Bool) (cur : Option Nat) : Prop :=
  match cur with
  | none => procs = []
  | some c => ∃ b, procs = List.replicate c false ++ [b]

/-- Structural invariant of reachable session states. -/
def Inv (st : SessSt) : Prop := ShapeOK st.procs st.current

/-- Invariant of the filter loop's threaded state: every network call so far
is the country-directory fetch, and once a country has been resolved or the
directory cache is filled, that fetch has happened. -/
def MInv (country : Option String) (st : MainSt) : Prop :=
  st.net.all (fun c => c == NetCall.countriesFetch) = true ∧
  (country.isSome = true → NetCall.countriesFetch ∈ st.net) ∧
  (st.cache.isSome = true → NetCall.countriesFetch ∈ st.net)

/-- The keys inserted by `get_countries`, in insertion order. -/
def keysOf : List (String × String) → List String
  | [] => []
  | e :: rest => pyLower e.2 :: pyLower e.1 :: keysOf rest

/-- The `mapping` dict as a plain interleaved list (no collisions). -/
def flatM : List (String × String) → List (String × String)
  | [] => []
  | e :: rest => (pyLower e.2, e.1) :: (pyLower e.1, e.1) :: flatM rest

/-! ### Helper lemmas -/

/-- `DECADES` spelled out. -/
lemma DECADES_eq :
    DECADES = [1900, 1910, 1920, 1930, 1940, 1950, 1960, 1970, 1980, 1990, 2000, 2010, 2020] := by
  decide

/-- Values below 1900 are not decades. -/
lemma decades_contains_false (m : Int) (h : m < 1900) : DECADES.contains m = false := by
  rw [DECADES_eq]
  simp only [List.contains, List.elem_eq_mem, decide_eq_false_iff_not, List.mem_cons,
    List.not_mem_nil, or_false]
  omega

/-- `resolve_decade` with its `let`s unfolded. -/
lemma resolve_decade_eq (ds : String) :
    resolve_decade ds =
      match pyInt (rstripS (pyStrip (pyLower ds))) with
      | none => Except.error (DecadeErr.invalid ds)
      | some n0 =>
          if DECADES.contains
              ((if n0 < 100 then (if 0 ≤ n0 ∧ n0 ≤ 20 then 2000 + n0 else 1900 + n0) else n0)
                / 10 * 10) then
            Except.ok
              ((if n0 < 100 then (if 0 ≤ n0 ∧ n0 ≤ 20 then 2000 + n0 else 1900 + n0) else n0)
                / 10 * 10)
          else
            Except.error (DecadeErr.outOfRange
              ((if n0 < 100 then (if 0 ≤ n0 ∧ n0 ≤ 20 then 2000 + n0 else 1900 + n0) else n0)
                / 10 * 10)) :=
  rfl

/-- Inversion: every value `resolve_decade` accepts passed the `DECADES`
membership check. -/
lemma resolve_decade_ok_mem (s : String) (n : Int) (h : resolve_decade s = .ok n) :
    DECADES.contains n = true := by
  rw [resolve_decade_eq] at h
  cases hp : pyInt (rstripS (pyStrip (pyLower s))) with
  | none => rw [hp] at h; exact absurd h (by simp)
  | some n0 =>
      rw [hp] at h
      dsimp only at h
      generalize ((if n0 < 100 then (if 0 ≤ n0 ∧ n0 ≤ 20 then 2000 + n0 else 1900 + n0) else n0)
        / 10 * 10) = v at h
      split at h
      · rw [← Except.ok.inj h]
        assumption
      · exact absurd h (by simp)

/-! ### Claim C3 -/

/-- Claim C3: for every integer `n` with `0 ≤ n ≤ 20`, `resolve_decade`
applied to the string form of `n` returns `2000 + n` rounded down to the
nearest multiple of 10; for `21 ≤ n ≤ 99` it returns `1900 + n` rounded down
to the nearest multiple of 10; and a trailing `s` on the token is stripped
before parsing (appending `"s"` never changes the result). -/
theorem C3_decade_shorthand :
    (∀ n : Nat, n < 21 → resolve_decade (toString n) = .ok ((2000 + (n : Int)) / 10 * 10)) ∧
    (∀ n : Nat, n < 100 → 20 < n →
      resolve_decade (toString n) = .ok ((1900 + (n : Int)) / 10 * 10)) ∧
    (∀ n : Nat, n < 100 → resolve_decade (toString n ++ "s") = resolve_decade (toString n)) := by
  refine ⟨by decide, by decide, by decide⟩

/-- Witness for C3 at `n = 7`, `n = 95` and the `"70s"` form. -/
theorem C3_decade_shorthand_witness :
    resolve_decade (toString (7 : Nat)) = .ok ((2000 + ((7 : Nat) : Int)) / 10 * 10) ∧
    resolve_decade (toString (95 : Nat)) = .ok ((1900 + ((95 : Nat) : Int)) / 10 * 10) ∧
    resolve_decade (toString (70 : Nat) ++ "s") = resolve_decade (toString (70 : Nat)) :=
  ⟨C3_decade_shorthand.1 7 (by decide), C3_decade_shorthand.2.1 95 (by decide) (by decide),
    C3_decade_shorthand.2.2 70 (by decide)⟩

/-! ### Claim C4 -/

/-- Counterexample to claim C4: `resolve_decade "2021"` does not fail — the
value is rounded down to 2020, which is in range, so the decade 2020 is
returned. -/
theorem C4_cex_2021_accepted : resolve_decade "2021" = Except.ok 2020 := by decide

/-- Claim C4 (amended): `resolve_decade "2021"` succeeds with 2020 (the claim
wrongly said it fails); `resolve_decade "abc"` fails with an invalid-decade
error; and every value `resolve_decade` accepts lies in
`{1900, 1910, ..., 2020}`. -/
theorem C4_decade_rejection :
    resolve_decade "2021" = Except.ok 2020 ∧
    resolve_decade "abc" = Except.error (DecadeErr.invalid "abc") ∧
    (∀ s n, resolve_decade s = Except.ok n → DECADES.contains n = true) ∧
    DECADES = [1900, 1910, 1920, 1930, 1940, 1950, 1960, 1970, 1980, 1990, 2000, 2010, 2020] :=
  ⟨by decide, by decide, resolve_decade_ok_mem, DECADES_eq⟩

/-- Witness for C4's accepted-values clause at the input `"1970"`. -/
theorem C4_decade_rejection_witness : DECADES.contains 1970 = true :=
  C4_decade_rejection.2.2.1 "1970" 1970 (by decide)

/-! ### Claim C10 -/

/-- Claim C10: for every negative parsed value `n`, `resolve_decade` fails
with the out-of-range error: the value falls into the two-digit shorthand
branch, is mapped through `1900 + n`, and the rounded result is below 1900,
hence never a member of `DECADES`. -/
theorem C10_negative_decade_fails :
    ∀ (s : String) (n : Int), pyInt (rstripS (pyStrip (pyLower s))) = some n → n < 0 →
      resolve_decade s = Except.error (DecadeErr.outOfRange ((1900 + n) / 10 * 10)) ∧
      (1900 + n) / 10 * 10 < 1900 := by
  intro s n hp hn
  have hlt : (1900 + n) / 10 * 10 < 1900 := by omega
  refine ⟨?_, hlt⟩
  rw [resolve_decade_eq, hp]
  have hval : (if n < 100 then (if 0 ≤ n ∧ n ≤ 20 then 2000 + n else 1900 + n) else n)
      = 1900 + n := by
    rw [if_pos (by omega : n < 100), if_neg (by omega : ¬(0 ≤ n ∧ n ≤ 20))]
  dsimp only
  rw [hval, decades_contains_false _ hlt]
  simp

/-- Witness for C10 at the string form of `-5`. -/
theorem C10_negative_decade_fails_witness :
    pyInt (rstripS (pyStrip (pyLower "-5"))) = some (-5) ∧
    resolve_decade "-5" = Except.error (DecadeErr.outOfRange ((1900 + (-5)) / 10 * 10)) :=
  ⟨by decide, (C10_negative_decade_fails "-5" (-5) (by decide) (by decide)).1⟩

/-! ### Claim C6 -/

/-- Claim C6: `get_track` returns `None` exactly when the track-fetch request
failed with HTTP status 400 and the parsed response's error message contains
`"No track"`; every other transport, HTTP, or parse failure propagates to the
caller as an error (and it is an error exactly when the response is neither a
success nor the 400 no-track case). -/
theorem C6_no_track_iff_400 :
    ∀ r : FetchResp,
      (get_track r = Except.ok none ↔ noTrack400 r = true) ∧
      ((∃ e, get_track r = Except.error e) ↔
        (noTrack400 r = false ∧ ∀ t, r ≠ FetchResp.success t)) := by
  intro r
  cases r with
  | success t =>
      refine ⟨by simp [get_track, noTrack400], ?_⟩
      constructor
      · rintro ⟨e, he⟩
        simp [get_track] at he
      · rintro ⟨-, h2⟩
        exact absurd rfl (h2 t)
  | netErr =>
      refine ⟨by simp [get_track, noTrack400], ?_⟩
      constructor
      · intro _
        exact ⟨rfl, fun t h => FetchResp.noConfusion h⟩
      · intro _
        exact ⟨FetchFailure.netRaise, rfl⟩
  | httpErr code body =>
      by_cases h4 : code = 400
      · subst h4
        cases body with
        | unparseable =>
            refine ⟨by simp [get_track, noTrack400], ?_⟩
            constructor
            · intro _
              exact ⟨rfl, fun t h => FetchResp.noConfusion h⟩
            · intro _
              exact ⟨FetchFailure.parseRaise, by simp [get_track]⟩
        | parsed errField =>
            by_cases hc : strContains (errField.getD "") "No track" = true
            · refine ⟨by simp [get_track, noTrack400, hc], ?_⟩
              constructor
              · rintro ⟨e, he⟩
                simp [get_track, hc] at he
              · rintro ⟨hf, -⟩
                simp [noTrack400, hc] at hf
            · refine ⟨by simp [get_track, noTrack400, hc], ?_⟩
              constructor
              · intro _
                refine ⟨by simp [noTrack400, hc], fun t h => FetchResp.noConfusion h⟩
              · intro _
                exact ⟨FetchFailure.httpRaise 400, by simp [get_track, hc]⟩
      · refine ⟨?_, ?_⟩
        · cases body with
          | unparseable => simp [get_track, noTrack400, h4]
          | parsed errField => simp [get_track, noTrack400, h4]
        · constructor
          · intro _
            refine ⟨?_, fun t h => FetchResp.noConfusion h⟩
            cases body with
            | unparseable => simp [noTrack400]
            | parsed errField => simp [noTrack400, h4]
          · intro _
            exact ⟨FetchFailure.httpRaise code, by simp [get_track, h4]⟩

/-! ### Session-controller invariant

Reachable session states have the shape: all child processes started before
the current one were asked to terminate (their flags are false), and the
Python `process` variable points at the most recently started child. -/

lemma set_last (c : Nat) (b b' : Bool) :
    (List.replicate c false ++ [b]).set c b' = List.replicate c false ++ [b'] := by
  induction c with
  | zero => rfl
  | succ k ih =>
      show false :: ((List.replicate k false ++ [b]).set k b') = false :: (List.replicate k false ++ [b'])
      rw [ih]

lemma countAlive_append (l1 l2 : List Bool) :
    countAlive (l1 ++ l2) = countAlive l1 + countAlive l2 := by
  simp [countAlive, List.filter_append]

lemma countAlive_replicate_false (c : Nat) : countAlive (List.replicate c false) = 0 := by
  induction c with
  | zero => rfl
  | succ k ih =>
      rw [List.replicate_succ]
      show countAlive (List.replicate k false) = 0
      exact ih

lemma countAlive_shape (c : Nat) (b : Bool) : countAlive (List.replicate c false ++ [b]) ≤ 1 := by
  rw [countAlive_append, countAlive_replicate_false]
  cases b <;> decide

/-- Terminating the current child of an invariant state leaves no alive child. -/
lemma countAlive_setDead (procs : List Bool) (cur : Option Nat) (h : ShapeOK procs cur) :
    countAlive (setDead procs cur) = 0 := by
  unfold ShapeOK at h
  cases cur with
  | none => rw [h]; rfl
  | some c =>
      obtain ⟨b, hb⟩ := h
      rw [hb]
      show countAlive ((List.replicate c false ++ [b]).set c false) = 0
      rw [set_last, countAlive_append, countAlive_replicate_false]
      rfl

lemma inv_initSt : Inv initSt := rfl

/-- Killing the current child preserves the invariant shape. -/
lemma inv_after_kill (procs : List Bool) (cur : Option Nat) (h : ShapeOK procs cur) :
    ShapeOK (setDead procs cur) cur := by
  unfold ShapeOK at h ⊢
  cases cur with
  | none => exact h
  | some c =>
      obtain ⟨b, hb⟩ := h
      exact ⟨false, by rw [hb]; exact set_last c b false⟩

/-- After killing the current child and starting a new one, the new process
list again has the invariant shape at the new current index. -/
lemma inv_after_start (procs : List Bool) (cur : Option Nat) (h : ShapeOK procs cur) :
    ∃ b, setDead procs cur ++ [true] =
      List.replicate ((setDead procs cur).length) false ++ [b] := by
  unfold ShapeOK at h
  cases cur with
  | none =>
      rw [h]
      exact ⟨true, rfl⟩
  | some c =>
      obtain ⟨b, hb⟩ := h
      refine ⟨true, ?_⟩
      rw [hb]
      show (List.replicate c false ++ [b]).set c false ++ [true] =
        List.replicate (((List.replicate c false ++ [b]).set c false).length) false ++ [true]
      rw [set_last, List.length_append, List.length_replicate, List.length_singleton,
        ← List.replicate_succ']

/-- The session invariant is preserved by every transition. -/
lemma inv_step (env : Env) (st : SessSt) (e : Ev) (h : Inv st) : Inv (step env st e) := by
  obtain ⟨ph, procs, cur, lg⟩ := st
  have h' : ShapeOK procs cur := h
  cases ph with
  | done code => cases e <;> exact h
  | fetching =>
      cases e with
      | interrupt => exact inv_after_kill procs cur h'
      | timeout => exact h
      | procExit => exact h
      | input line => exact h
      | fetched t =>
          cases t with
          | none => exact h
          | some tr =>
              dsimp only [step]
              generalize play_track_check env tr = pc
              cases pc with
              | noUrl => exact inv_after_kill procs cur h'
              | noPlayer => exact inv_after_kill procs cur h'
              | started => exact inv_after_start procs cur h'
  | waiting =>
      cases e with
      | interrupt => exact inv_after_kill procs cur h'
      | timeout => exact h
      | fetched t => exact h
      | procExit => exact inv_after_kill procs cur h'
      | input line =>
          dsimp only [step]
          split
          · exact inv_after_kill procs cur h'
          · split
            · exact inv_after_kill procs cur h'
            · exact h

/-- Every reachable session state satisfies the invariant. -/
lemma inv_run (env : Env) (evs : List Ev) : Inv (run env evs) := by
  suffices hall : ∀ (l : List Ev) (st : SessSt), Inv st → Inv (List.foldl (step env) st l) from
    hall evs initSt inv_initSt
  intro l
  induction l with
  | nil => intro st h; exact h
  | cons e t ih => intro st h; exact ih _ (inv_step env st e h)

lemma all_not_replicate_false (c : Nat) : (List.replicate c false).all (fun b => !b) = true := by
  simp [List.all_eq_true, List.mem_replicate]

lemma setDead_length (procs : List Bool) (cur : Option Nat) :
    (setDead procs cur).length = procs.length := by
  cases cur with
  | none => rfl
  | some c => exact List.length_set procs c false

/-! ### Claim C1 -/

/-- Claim C1: in interactive mode, for every sequence of fetch / play / skip /
natural-end / input / interrupt transitions, at most one child audio-player
process is alive at any time; moreover every process started before the
current one has been asked to terminate (its flag is false). -/
theorem C1_single_player_invariant :
    ∀ (env : Env) (evs : List Ev),
      countAlive (run env evs).procs ≤ 1 ∧
      (run env evs).procs.dropLast.all (fun b => !b) = true := by
  intro env evs
  have h : Inv (run env evs) := inv_run env evs
  unfold Inv ShapeOK at h
  rcases hc : (run env evs).current with _ | c
  · rw [hc] at h
    rw [h]
    exact ⟨by decide, by decide⟩
  · rw [hc] at h
    obtain ⟨b, hb⟩ := h
    rw [hb]
    refine ⟨countAlive_shape c b, ?_⟩
    rw [List.dropLast_concat]
    exact all_not_replicate_false c

/-! ### Claim C9 -/

/-- Claim C9: an external interrupt in any running (non-terminated) state of a
session stops the current child process if one is alive, prints the farewell
message, and ends the process with exit code 0. -/
theorem C9_interrupt_clean_shutdown :
    ∀ (env : Env) (evs : List Ev), isRunning (run env evs).phase = true →
      (run env (evs ++ [Ev.interrupt])).phase = Phase.done 0 ∧
      countAlive (run env (evs ++ [Ev.interrupt])).procs = 0 ∧
      Msg.farewell ∈ (run env (evs ++ [Ev.interrupt])).log := by
  intro env evs
  have h : Inv (run env evs) := inv_run env evs
  have hstep : run env (evs ++ [Ev.interrupt]) = step env (run env evs) Ev.interrupt := by
    unfold run
    rw [List.foldl_append]
    rfl
  rw [hstep]
  revert h
  generalize run env evs = st
  intro h hrun
  obtain ⟨ph, procs, cur, lg⟩ := st
  have h' : ShapeOK procs cur := h
  cases ph with
  | done code => simp [isRunning] at hrun
  | fetching => exact ⟨rfl, countAlive_setDead procs cur h', by simp [step, cleanup]⟩
  | waiting => exact ⟨rfl, countAlive_setDead procs cur h', by simp [step, cleanup]⟩

/-- Witness for C9: interrupting while the first track plays. -/
theorem C9_interrupt_clean_shutdown_witness :
    (run ⟨true, true⟩ ([Ev.fetched (some ⟨some "u"⟩)] ++ [Ev.interrupt])).phase = Phase.done 0 ∧
    countAlive (run ⟨true, true⟩ ([Ev.fetched (some ⟨some "u"⟩)] ++ [Ev.interrupt])).procs = 0 ∧
    Msg.farewell ∈ (run ⟨true, true⟩ ([Ev.fetched (some ⟨some "u"⟩)] ++ [Ev.interrupt])).log :=
  C9_interrupt_clean_shutdown ⟨true, true⟩ [Ev.fetched (some ⟨some "u"⟩)] (by decide)

/-! ### Claim C2 -/

/-- Counterexample to claim C2: in the Playing wait loop, the unrecognized
non-empty input line `"shuffle"` is NOT treated as a skip command — the state
is unchanged and the controller keeps waiting instead of proceeding to fetch
the next track. -/
theorem C2_cex_unrecognized_input_ignored :
    (run ⟨true, false⟩ [Ev.fetched (some ⟨some "u"⟩), Ev.input "shuffle"]) =
      run ⟨true, false⟩ [Ev.fetched (some ⟨some "u"⟩)] ∧
    (run ⟨true, false⟩ [Ev.fetched (some ⟨some "u"⟩), Ev.input "shuffle"]).phase = Phase.waiting ∧
    (run ⟨true, false⟩ [Ev.fetched (some ⟨some "u"⟩), Ev.input "shuffle"]).phase ≠ Phase.fetching := by
  decide

/-- Claim C2 (amended): in the Playing wait loop, an input line whose
stripped, lowercased form is one of the quit keywords `q`, `quit`, `exit`
terminates the session (exit code 0, farewell printed); one of the skip
keywords `n`, `next`, or the empty line proceeds to Fetching immediately; and
any other input line is ignored — the state is unchanged and the loop keeps
waiting (it is NOT treated as a skip). -/
theorem C2_input_handling :
    ∀ (env : Env) (st : SessSt) (line : String), st.phase = Phase.waiting →
      (quitKeys.contains (pyLower (pyStrip line)) = true →
        (step env st (Ev.input line)).phase = Phase.done 0 ∧
        Msg.farewell ∈ (step env st (Ev.input line)).log) ∧
      (quitKeys.contains (pyLower (pyStrip line)) = false →
        skipKeys.contains (pyLower (pyStrip line)) = true →
        (step env st (Ev.input line)).phase = Phase.fetching) ∧
      (quitKeys.contains (pyLower (pyStrip line)) = false →
        skipKeys.contains (pyLower (pyStrip line)) = false →
        step env st (Ev.input line) = st) := by
  intro env st line hph
  obtain ⟨ph, procs, cur, lg⟩ := st
  have hph' : ph = Phase.waiting := hph
  subst hph'
  refine ⟨?_, ?_, ?_⟩
  · intro hq
    simp at hq
    simp [step, hq, cleanup]
  · intro hq hs
    simp at hq hs
    simp [step, hq, hs]
  · intro hq hs
    simp at hq hs
    simp [step, hq, hs]

/-- Witness for C2: a quit line and a skip line at a waiting state. -/
theorem C2_input_handling_witness :
    ((step ⟨true, true⟩ ⟨Phase.waiting, [true], some 0, []⟩ (Ev.input " QUIT ")).phase = Phase.done 0 ∧
      Msg.farewell ∈ (step ⟨true, true⟩ ⟨Phase.waiting, [true], some 0, []⟩ (Ev.input " QUIT ")).log) ∧
    (step ⟨true, true⟩ ⟨Phase.waiting, [true], some 0, []⟩ (Ev.input "next")).phase = Phase.fetching :=
  ⟨(C2_input_handling ⟨true, true⟩ ⟨Phase.waiting, [true], some 0, []⟩ " QUIT " rfl).1 (by decide),
    (C2_input_handling ⟨true, true⟩ ⟨Phase.waiting, [true], some 0, []⟩ "next" rfl).2.1
      (by decide) (by decide)⟩

/-! ### Claim C7 -/

/-- Counterexample to claim C7: with no player installed, the remediation
message is reported and the session ends cleanly, but the process exit code
is 0, not 1 as the claim states. -/
theorem C7_cex_missing_player_exit_code :
    (run ⟨false, false⟩ [Ev.fetched (some ⟨some "http"⟩)]).phase = Phase.done 0 ∧
    Msg.remediation ∈ (run ⟨false, false⟩ [Ev.fetched (some ⟨some "http"⟩)]).log ∧
    (run ⟨false, false⟩ [Ev.fetched (some ⟨some "http"⟩)]).phase ≠ Phase.done 1 := by
  decide

/-- Claim C7 (amended): when neither player executable is installed and a
track with a playable URL arrives, the remediation message is reported,
`play_track` starts no process (the process list does not grow), the session
ends cleanly — and the process exits with code 0, not 1. -/
theorem C7_missing_player :
    ∀ (env : Env) (st : SessSt) (t : Track) (u : String),
      env.mpv = false → env.ffplay = false → st.phase = Phase.fetching →
      t.mpeg = some u → u ≠ "" →
      Msg.remediation ∈ (step env st (Ev.fetched (some t))).log ∧
      (step env st (Ev.fetched (some t))).phase = Phase.done 0 ∧
      (step env st (Ev.fetched (some t))).procs.length = st.procs.length := by
  intro env st t u hm hf hph hu hne
  have hpc : play_track_check env t = PlayOutcome.noPlayer := by
    unfold play_track_check
    rw [hu]
    dsimp only
    rw [if_neg hne, hm, hf]
    rfl
  obtain ⟨ph, procs, cur, lg⟩ := st
  have hph' : ph = Phase.fetching := hph
  subst hph'
  dsimp only [step]
  rw [hpc]
  exact ⟨by simp, rfl, setDead_length procs cur⟩

/-- Witness for C7 at the initial state with a playable track and no players. -/
theorem C7_missing_player_witness :
    Msg.remediation ∈ (step ⟨false, false⟩ initSt (Ev.fetched (some ⟨some "http"⟩))).log ∧
    (step ⟨false, false⟩ initSt (Ev.fetched (some ⟨some "http"⟩))).phase = Phase.done 0 ∧
    (step ⟨false, false⟩ initSt (Ev.fetched (some ⟨some "http"⟩))).procs.length =
      initSt.procs.length :=
  C7_missing_player ⟨false, false⟩ initSt ⟨some "http"⟩ "http" rfl rfl rfl rfl (by decide)

/-! ### Claim C8 -/

lemma MInv_errs (country : Option String) (st : MainSt) (l : List CliMsg)
    (h : MInv country st) : MInv country { st with errs := st.errs ++ l } := h

lemma get_countriesM_spec (dir : List (String × String)) (country : Option String)
    (st : MainSt) (h : MInv country st) :
    MInv country (get_countriesM dir st).2 ∧
    NetCall.countriesFetch ∈ (get_countriesM dir st).2.net ∧
    (get_countriesM dir st).2.errs = st.errs := by
  unfold get_countriesM
  cases hc : st.cache with
  | some mn =>
      dsimp only
      exact ⟨h, h.2.2 (by rw [hc]; rfl), rfl⟩
  | none =>
      dsimp only
      refine ⟨⟨?_, ?_, ?_⟩, ?_, rfl⟩
      · simp only [List.all_append, h.1, Bool.true_and]
        decide
      · intro hs
        exact List.mem_append_left _ (h.2.1 hs)
      · intro _
        exact List.mem_append_right _ (by simp)
      · exact List.mem_append_right _ (by simp)

lemma MInv_decadeTry (country : Option String) (st : MainSt) (f : String)
    (h : MInv country st) : MInv country (decadeTryOf st f).2 := by
  unfold decadeTryOf
  cases pyInt (rstripS (pyStrip (pyLower f))) with
  | none => exact h
  | some n0 =>
      cases resolve_decade f with
      | ok d => exact h
      | error e => exact h

/-- A token that fails decade resolution falls through to the country branch. -/
lemma decadeTryOf_fst_none (st : MainSt) (f : String) (e : DecadeErr)
    (he : resolve_decade f = .error e) : (decadeTryOf st f).1 = none := by
  unfold decadeTryOf
  cases pyInt (rstripS (pyStrip (pyLower f))) with
  | none => rfl
  | some n0 => rw [he]

/-- One unfolding of the filter loop on a non-empty token list. -/
lemma processFiltersGo_cons (dir : List (String × String)) (country : Option String)
    (decades : List Int) (st : MainSt) (f : String) (rest : List String) :
    processFiltersGo dir country decades st (f :: rest) =
      match decadeTryOf st f with
      | (some d, st1) => processFiltersGo dir country (decades ++ [d]) st1 rest
      | (none, st1) =>
          if country.isSome then
            (.exit 1, { st1 with errs := st1.errs ++ [CliMsg.multipleCountries] })
          else
            match resolve_country_core (get_countriesM dir st1).1.1
                (get_countriesM dir st1).1.2 f with
            | .ok iso => processFiltersGo dir (some iso) decades (get_countriesM dir st1).2 rest
            | .error e =>
                (.exit 1, { (get_countriesM dir st1).2 with
                  errs := (get_countriesM dir st1).2.errs ++ [countryErrMsg e] }) := by
  simp only [processFiltersGo]

/-- Behavior of the filter loop under its invariant: the network trace holds
only directory fetches, and every exit is `sys.exit(1)` with an error
reported and the directory already fetched. -/
lemma processFiltersGo_spec (dir : List (String × String)) :
    ∀ (filters : List String) (country : Option String) (decades : List Int) (st : MainSt),
      MInv country st →
      ((processFiltersGo dir country decades st filters).2.net).all
        (fun c => c == NetCall.countriesFetch) = true ∧
      (∀ c, (processFiltersGo dir country decades st filters).1 = MainOutcome.exit c →
        c = 1 ∧ (processFiltersGo dir country decades st filters).2.errs ≠ [] ∧
        NetCall.countriesFetch ∈ (processFiltersGo dir country decades st filters).2.net) := by
  intro filters
  induction filters with
  | nil =>
      intro country decades st h
      exact ⟨h.1, fun c hc => MainOutcome.noConfusion hc⟩
  | cons f rest ih =>
      intro country decades st h
      rw [processFiltersGo_cons]
      have hm : MInv country (decadeTryOf st f).2 := MInv_decadeTry country st f h
      rcases hdt : decadeTryOf st f with ⟨dopt, st1⟩
      rw [hdt] at hm
      cases dopt with
      | some d => exact ih country (decades ++ [d]) st1 hm
      | none =>
          dsimp only
          cases country with
          | some ctry =>
              simp only [Option.isSome_some, eq_self_iff_true, if_true]
              exact ⟨hm.1, fun c hc =>
                ⟨(MainOutcome.exit.inj hc).symm, by simp, hm.2.1 rfl⟩⟩
          | none =>
              simp only [Option.isSome_none, Bool.false_eq_true, if_false]
              obtain ⟨hg, hmem, herrs⟩ := get_countriesM_spec dir none st1 hm
              cases hrc : resolve_country_core (get_countriesM dir st1).1.1
                  (get_countriesM dir st1).1.2 f with
              | ok iso =>
                  dsimp only
                  exact ih (some iso) decades _ ⟨hg.1, fun _ => hmem, hg.2.2⟩
              | error e2 =>
                  dsimp only
                  exact ⟨hg.1, fun c hc =>
                    ⟨(MainOutcome.exit.inj hc).symm, by simp, hmem⟩⟩

/-- Counterexample to claim C8: the invocation `radio atlantis` has an
unknown-country filter token, and it aborts with exit code 1 only AFTER
performing the country-directory network call. -/
theorem C8_cex_network_call_before_abort :
    (processFilters [("ITA", "Italy")] ["atlantis"]).1 = MainOutcome.exit 1 ∧
    NetCall.countriesFetch ∈ (processFilters [("ITA", "Italy")] ["atlantis"]).2.net := by
  decide

/-- Claim C8 (amended): resolution errors in the positional filters are
reported and abort with exit code 1 before any track-fetch network call —
but not before any network call at all: the country-directory fetch always
precedes such an abort, because resolving a country token requires the
directory, and a failing decade token falls through (its `SystemExit` is
caught) to country resolution. -/
theorem C8_resolution_errors :
    (∀ dir filters, ((processFilters dir filters).2.net).all
        (fun c => c == NetCall.countriesFetch) = true) ∧
    (∀ dir filters c, (processFilters dir filters).1 = MainOutcome.exit c →
      c = 1 ∧ (processFilters dir filters).2.errs ≠ [] ∧
      NetCall.countriesFetch ∈ (processFilters dir filters).2.net) ∧
    (∀ dir f rest, (∃ e, resolve_decade f = .error e) →
      (∃ e, resolve_country_core (buildMapping dir) (namesOf dir) f = .error e) →
      (processFilters dir (f :: rest)).1 = MainOutcome.exit 1) := by
  have hMInv0 : MInv none { cache := none, net := [], errs := [] } :=
    ⟨rfl, fun h => absurd h (by decide), fun h => absurd h (by decide)⟩
  refine ⟨?_, ?_, ?_⟩
  · intro dir filters
    exact (processFiltersGo_spec dir filters none [] _ hMInv0).1
  · intro dir filters c hc
    exact (processFiltersGo_spec dir filters none [] _ hMInv0).2 c hc
  · rintro dir f rest ⟨e1, he1⟩ ⟨e2, he2⟩
    unfold processFilters
    rw [processFiltersGo_cons]
    have h1 : (decadeTryOf { cache := none, net := [], errs := [] } f).1 = none :=
      decadeTryOf_fst_none _ f e1 he1
    rcases hdt : decadeTryOf { cache := none, net := [], errs := [] } f with ⟨dopt, st1⟩
    rw [hdt] at h1
    cases dopt with
    | some d => exact absurd h1 (by simp)
    | none =>
        dsimp only
        simp only [Option.isSome_none, Bool.false_eq_true, if_false]
        have hcache : st1.cache = none := by
          have : (decadeTryOf { cache := none, net := [], errs := [] } f).2.cache = none := by
            unfold decadeTryOf
            cases pyInt (rstripS (pyStrip (pyLower f))) with
            | none => rfl
            | some n0 =>
                cases resolve_decade f with
                | ok d => rfl
                | error e => rfl
          rw [hdt] at this
          exact this
        have hget1 : (get_countriesM dir st1).1.1 = buildMapping dir := by
          unfold get_countriesM
          rw [hcache]
        have hget2 : (get_countriesM dir st1).1.2 = namesOf dir := by
          unfold get_countriesM
          rw [hcache]
        rw [hget1, hget2, he2]

/-- Witness for C8's abort clause at the unknown token `"atlantis"`. -/
theorem C8_resolution_errors_witness :
    (processFilters [("ITA", "Italy")] ("atlantis" :: [])).1 = MainOutcome.exit 1 :=
  C8_resolution_errors.2.2 [("ITA", "Italy")] "atlantis" []
    ⟨DecadeErr.invalid "atlantis", by decide⟩
    ⟨CountryErr.unknown "atlantis", by decide⟩

/-! ### Claim C5

`buildMapping` interleaves, per directory entry, a lowercased-name key and a
lowercased-code key.  When no two keys collide (real directories: distinct
country names, distinct 3-letter codes, names and codes distinct), the dict
is exactly that interleaved list, and `resolve_country` coincides with the
spec's description. -/

lemma pyLower_data_length (s : String) : (pyLower s).data.length = s.data.length := by
  simp [pyLower]

/-- Inserting a fresh key appends it. -/
lemma dictInsert_new (m : List (String × String)) (k v : String)
    (h : k ∉ m.map Prod.fst) : dictInsert m k v = m ++ [(k, v)] := by
  unfold dictInsert
  by_cases hany : m.any (fun p => p.1 == k) = true
  · exfalso
    obtain ⟨p, hp, hpk⟩ := List.any_eq_true.mp hany
    exact h (List.mem_map.mpr ⟨p, hp, eq_of_beq hpk⟩)
  · rw [if_neg hany]

lemma buildMapping_go :
    ∀ (entries : List (String × String)) (acc : List (String × String)),
      (acc.map Prod.fst ++ keysOf entries).Nodup →
      List.foldl (fun m e => dictInsert (dictInsert m (pyLower e.2) e.1) (pyLower e.1) e.1)
          acc entries =
        acc ++ flatM entries := by
  intro entries
  induction entries with
  | nil =>
      intro acc h
      simp [flatM]
  | cons e rest ih =>
      intro acc h
      obtain ⟨hacc, hkeys, hdisj⟩ := List.nodup_append.mp h
      have hne : pyLower e.2 ≠ pyLower e.1 := by
        have hcons := List.nodup_cons.mp hkeys
        exact fun hEq => hcons.1 (hEq ▸ List.mem_cons_self _ _)
      have hn : pyLower e.2 ∉ acc.map Prod.fst :=
        fun hm => hdisj hm (List.mem_cons_self _ _)
      have hi : pyLower e.1 ∉ (acc ++ [(pyLower e.2, e.1)]).map Prod.fst := by
        intro hm
        rw [List.map_append] at hm
        rcases List.mem_append.mp hm with hm1 | hm2
        · exact hdisj hm1 (List.mem_cons_of_mem _ (List.mem_cons_self _ _))
        · have h12 : pyLower e.1 = pyLower e.2 := by
            simpa using hm2
          exact hne h12.symm
      rw [List.foldl_cons, dictInsert_new acc (pyLower e.2) e.1 hn,
        dictInsert_new (acc ++ [(pyLower e.2, e.1)]) (pyLower e.1) e.1 hi]
      rw [ih (acc ++ [(pyLower e.2, e.1)] ++ [(pyLower e.1, e.1)]) (by
        simp only [List.map_append, List.append_assoc, List.map_cons, List.map_nil,
          List.singleton_append, List.cons_append, List.nil_append]
        simpa [keysOf] using h)]
      simp [flatM]

/-- With collision-free keys, the dict built by `get_countries` is the plain
interleaved list. -/
lemma buildMapping_eq_flatM (entries : List (String × String))
    (h : (keysOf entries).Nodup) : buildMapping entries = flatM entries := by
  have hgo := buildMapping_go entries [] (by simpa using h)
  simpa [buildMapping] using hgo

/-- Looking a query up in the interleaved dict is scanning the directory for
an entry whose lowercased name or lowercased code matches. -/
lemma dictFind_flatM (entries : List (String × String)) (q : String) :
    dictFind (flatM entries) q =
      (entries.find? (fun e => pyLower e.2 == q || pyLower e.1 == q)).map (fun e => e.1) := by
  induction entries with
  | nil => rfl
  | cons e rest ih =>
      show dictFind ((pyLower e.2, e.1) :: (pyLower e.1, e.1) :: flatM rest) q = _
      unfold dictFind
      rw [List.find?_cons, List.find?_cons, List.find?_cons]
      cases h2 : (pyLower e.2 == q) with
      | true => rfl
      | false =>
          cases h1 : (pyLower e.1 == q) with
          | true => rfl
          | false => exact ih

/-- With 3-character codes, partial-match candidates collected from the dict
are exactly the long-enough display names containing the query. -/
lemma flatM_filter (q : String) :
    ∀ entries : List (String × String), (∀ e ∈ entries, e.1.data.length ≤ 3) →
      ((flatM entries).filter
          (fun p => strContains p.1 q && decide (3 < p.1.data.length))).map
          (fun p => (p.2, p.1)) =
        (entries.filter
            (fun e => strContains (pyLower e.2) q && decide (3 < (pyLower e.2).data.length))).map
            (fun e => (e.1, pyLower e.2)) := by
  intro entries
  induction entries with
  | nil => intro h; rfl
  | cons e rest ih =>
      intro h
      have hrest := fun x hx => h x (List.mem_cons_of_mem _ hx)
      have hhead : e.1.data.length ≤ 3 := h e (List.mem_cons_self _ _)
      have h3 : ¬3 < (pyLower e.1).data.length := by
        rw [pyLower_data_length]
        omega
      have hb : (strContains (pyLower e.1) q && decide (3 < (pyLower e.1).data.length)) = false := by
        rw [decide_eq_false h3, Bool.and_false]
      show ((((pyLower e.2, e.1) : String × String) :: (pyLower e.1, e.1) :: flatM rest).filter _).map _ = _
      simp only [List.filter_cons]
      rw [hb]
      cases hc : (strContains (pyLower e.2) q && decide (3 < (pyLower e.2).data.length)) with
      | true =>
          simp only [eq_self_iff_true, if_true, Bool.false_eq_true, if_false, List.map_cons]
          rw [ih hrest]
      | false =>
          simp only [Bool.false_eq_true, if_false]
          exact ih hrest

lemma namesOf_go :
    ∀ (entries : List (String × String)) (acc : List (String × String)),
      (acc.map Prod.fst ++ entries.map Prod.fst).Nodup →
      List.foldl (fun m e => dictInsert m e.1 e.2) acc entries = acc ++ entries := by
  intro entries
  induction entries with
  | nil =>
      intro acc h
      simp
  | cons e rest ih =>
      intro acc h
      obtain ⟨hacc, hkeys, hdisj⟩ := List.nodup_append.mp h
      have hn : e.1 ∉ acc.map Prod.fst :=
        fun hm => hdisj hm (by simp)
      rw [List.foldl_cons, dictInsert_new acc e.1 e.2 hn]
      rw [ih (acc ++ [(e.1, e.2)]) (by
        simp only [List.map_append, List.append_assoc, List.map_cons, List.map_nil,
          List.singleton_append, List.cons_append, List.nil_append]
        simpa using h)]
      simp

/-- With distinct codes, the `names` dict is the directory itself. -/
lemma namesOf_eq (entries : List (String × String))
    (h : (entries.map Prod.fst).Nodup) : namesOf entries = entries := by
  have hgo := namesOf_go entries [] (by simpa using h)
  simpa [namesOf] using hgo

lemma map_lower_iso_sublist_keys :
    ∀ entries : List (String × String),
      (entries.map (fun e => pyLower e.1)).Sublist (keysOf entries)
  | [] => List.nil_sublist _
  | _e :: rest =>
      List.Sublist.cons _ (List.Sublist.cons₂ _ (map_lower_iso_sublist_keys rest))

/-- Collision-free keys force distinct codes. -/
lemma nodup_iso_of_keys (entries : List (String × String))
    (h : (keysOf entries).Nodup) : (entries.map Prod.fst).Nodup := by
  have hsub := map_lower_iso_sublist_keys entries
  have h1 : (entries.map (fun e => pyLower e.1)).Nodup := List.Nodup.sublist hsub h
  have h2 : (entries.map Prod.fst).map pyLower = entries.map (fun e => pyLower e.1) := by
    rw [List.map_map]
    rfl
  refine List.Nodup.of_map pyLower ?_
  rw [h2]
  exact h1

/-- Claim C5: for every query against a collision-free directory with
3-character codes, `resolve_country` behaves exactly as the spec describes —
exact match on lowercased names/codes first, otherwise substring candidates
from display names longer than 3 characters with duplicate codes collapsed,
with the single-candidate / unknown / ambiguous (at most 10 listed) outcomes.
Stated as equality with `resolve_country_spec`, the direct transcription of
the spec's words. -/
theorem C5_resolve_country_refines_spec :
    ∀ (entries : List (String × String)) (query : String),
      (keysOf entries).Nodup →
      (∀ e ∈ entries, e.1.data.length ≤ 3) →
      resolve_country entries query = resolve_country_spec entries query := by
  intro entries query hkeys hcode
  have hiso : (entries.map Prod.fst).Nodup := nodup_iso_of_keys entries hkeys
  unfold resolve_country resolve_country_core resolve_country_spec
  dsimp only
  rw [buildMapping_eq_flatM entries hkeys,
    dictFind_flatM entries (pyStrip (pyLower query))]
  cases hf : entries.find?
      (fun e => pyLower e.2 == pyStrip (pyLower query) || pyLower e.1 == pyStrip (pyLower query)) with
  | some e => rfl
  | none =>
      dsimp only
      rw [flatM_filter (pyStrip (pyLower query)) entries hcode, namesOf_eq entries hiso]
      rfl

/-- Witness for C5: the two-country directory from the spec's test bullet. -/
theorem C5_resolve_country_refines_spec_witness :
    (keysOf [("ITA", "Italy"), ("JPN", "Japan")]).Nodup ∧
    resolve_country [("ITA", "Italy"), ("JPN", "Japan")] "italy" =
      resolve_country_spec [("ITA", "Italy"), ("JPN", "Japan")] "italy" ∧
    resolve_country [("ITA", "Italy"), ("JPN", "Japan")] "italy" = .ok "ITA" :=
  ⟨by decide,
    C5_resolve_country_refines_spec [("ITA", "Italy"), ("JPN", "Japan")] "italy"
      (by decide) (by decide),
    by decide⟩


end Radio
